import Mathlib

/-!
Formal model of the PDFRest service's CDP transport and rendering pipeline
(Go sources: `cdp_client.go`, `chrome.go`, `main.go`, the HTTP handlers and
the option parser). Machine integers are modelled as `Nat`/`Int` with explicit
reductions modulo `2 ^ w` where Go's fixed-width arithmetic can overflow;
byte strings are `List Nat` with every element a value below 256.
-/

namespace PDFRest

/-! ## Byte-level helpers -/

/-- Big-endian byte rendering of `n` on `k` bytes: the translation of Go's
`byte(n >> 8*(k-1)) ... byte(n)` sequences (`writeFrame`, SHA-1 length
tail). Each emitted byte is reduced modulo 256 exactly as Go's `byte(...)`
conversion truncates. -/
def beBytes : Nat → Nat → List Nat
  | 0, _ => []
  | k + 1, n => ((n >>> (8 * k)) % 256) :: beBytes k n

/-- The value of a big-endian byte string (how a conformant reader
reassembles an extended payload length). -/
def beVal : List Nat → Nat
  | [] => 0
  | b :: rest => b * 256 ^ rest.length + beVal rest

/-- XOR-mask a byte string with a (4-byte) key, rotating through the key
modulo 4 starting at offset `i`: the translation of `writeFrame`'s loop
`frame[offset+i] = payload[i] ^ maskKey[i%4]`. -/
def maskBytes (key : List Nat) : Nat → List Nat → List Nat
  | _, [] => []
  | i, b :: rest => (b ^^^ key.getD (i % 4) 0) :: maskBytes key (i + 1) rest

/-! ## SHA-1 (Go `crypto/sha1`, used by `computeWebSocketAccept`) -/

/-- Rotate a 32-bit word left by `k` bits. -/
def rotl32 (k x : Nat) : Nat :=
  (((x <<< k) % 4294967296) ||| (x >>> (32 - k)))

/-- SHA-1 padding: the message, a 0x80 byte, zeros up to 56 mod 64, and the
original bit length on 8 big-endian bytes. -/
def sha1Pad (msg : List Nat) : List Nat :=
  let zeros := (64 - (msg.length + 9) % 64) % 64
  msg ++ 0x80 :: List.replicate zeros 0 ++ beBytes 8 (msg.length * 8)

/-- Split a byte string into 64-byte blocks (structural recursion on a fuel
bound so the definition reduces inside the kernel; the fuel never runs out
because every step consumes at least one byte). -/
def chunks64Aux : Nat → List Nat → List (List Nat)
  | 0, _ => []
  | _, [] => []
  | fuel + 1, x :: xs => (x :: xs).take 64 :: chunks64Aux fuel ((x :: xs).drop 64)

/-- Split a byte string into 64-byte blocks. -/
def chunks64 (xs : List Nat) : List (List Nat) := chunks64Aux xs.length xs

/-- Big-endian 32-bit words of a 64-byte block. -/
def beWords : List Nat → List Nat
  | b0 :: b1 :: b2 :: b3 :: rest =>
      ((b0 <<< 24) ||| (b1 <<< 16) ||| (b2 <<< 8) ||| b3) :: beWords rest
  | _ => []

/-- Extend the 16 block words to the 80-word SHA-1 message schedule. -/
def sha1Schedule (ws : List Nat) : List Nat :=
  ((List.range 64).foldl
    (fun (acc : Array Nat) _ =>
      let i := acc.size
      acc.push (rotl32 1
        ((acc.getD (i - 3) 0) ^^^ (acc.getD (i - 8) 0) ^^^
         (acc.getD (i - 14) 0) ^^^ (acc.getD (i - 16) 0))))
    ws.toArray).toList

/-- The SHA-1 round function. -/
def sha1F (i b c d : Nat) : Nat :=
  if i < 20 then (b &&& c) ||| ((b ^^^ 0xFFFFFFFF) &&& d)
  else if i < 40 then b ^^^ c ^^^ d
  else if i < 60 then (b &&& c) ||| (b &&& d) ||| (c &&& d)
  else b ^^^ c ^^^ d

/-- The SHA-1 round constants. -/
def sha1K (i : Nat) : Nat :=
  if i < 20 then 0x5A827999
  else if i < 40 then 0x6ED9EBA1
  else if i < 60 then 0x8F1BBCDC
  else 0xCA62C1D6

/-- One SHA-1 compression of a 64-byte block into the running state. -/
def sha1Compress (h : Nat × Nat × Nat × Nat × Nat) (block : List Nat) :
    Nat × Nat × Nat × Nat × Nat :=
  let ws := sha1Schedule (beWords block)
  let st := (List.range 80).foldl
    (fun (st : Nat × Nat × Nat × Nat × Nat) i =>
      let (a, b, c, d, e) := st
      let temp := (rotl32 5 a + sha1F i b c d + e + sha1K i + ws.getD i 0) % 4294967296
      (temp, a, rotl32 30 b, c, d)) h
  let (a, b, c, d, e) := st
  let (h0, h1, h2, h3, h4) := h
  ((h0 + a) % 4294967296, (h1 + b) % 4294967296, (h2 + c) % 4294967296,
   (h3 + d) % 4294967296, (h4 + e) % 4294967296)

/-- SHA-1 of a byte string, as a 20-byte big-endian digest. -/
def sha1 (msg : List Nat) : List Nat :=
  let final := (chunks64 (sha1Pad msg)).foldl sha1Compress
    (0x67452301, 0xEFCDAB89, 0x98BADCFE, 0x10325476, 0xC3D2E1F0)
  let (h0, h1, h2, h3, h4) := final
  beBytes 4 h0 ++ beBytes 4 h1 ++ beBytes 4 h2 ++ beBytes 4 h3 ++ beBytes 4 h4

/-! ## Base64 (Go `encoding/base64` standard encoding) -/

/-- The standard base64 alphabet. -/
def b64Chars : List Char :=
  "ABCDEFGHIJKLMNOPQRSTUVWXYZabcdefghijklmnopqrstuvwxyz0123456789+/".toList

/-- The alphabet character of a 6-bit value. -/
def b64c (n : Nat) : Char := b64Chars.getD n 'A'

/-- Standard padded base64 rendering of a byte string, three input bytes per
four output characters. -/
def base64Chars : List Nat → List Char
  | [] => []
  | [a] => [b64c (a >>> 2), b64c ((a &&& 3) <<< 4), '=', '=']
  | [a, b] => [b64c (a >>> 2), b64c (((a &&& 3) <<< 4) ||| (b >>> 4)),
               b64c ((b &&& 15) <<< 2), '=']
  | a :: b :: c :: rest =>
      b64c (a >>> 2) :: b64c (((a &&& 3) <<< 4) ||| (b >>> 4)) ::
      b64c (((b &&& 15) <<< 2) ||| (c >>> 6)) :: b64c (c &&& 63) ::
      base64Chars rest

/-- Go's `base64.StdEncoding.EncodeToString`. -/
def base64Encode (bs : List Nat) : String := String.mk (base64Chars bs)

/-- The 6-bit value of a base64 alphabet character, `none` outside the
alphabet (also for the padding character). -/
def b64Value (c : Char) : Option Nat := b64Chars.findIdx? (fun x => x == c)

/-- Go's `base64.StdEncoding.DecodeString` (non-strict standard decoding:
padded four-character quanta, padding only in the final quantum). -/
def base64DecodeChars : List Char → Option (List Nat)
  | [] => some []
  | c1 :: c2 :: c3 :: c4 :: rest =>
    match b64Value c1, b64Value c2 with
    | some v1, some v2 =>
      if c3 = '=' then
        if c4 = '=' ∧ rest = [] then some [(v1 <<< 2) ||| (v2 >>> 4)] else none
      else
        match b64Value c3 with
        | some v3 =>
          if c4 = '=' then
            if rest = [] then
              some [(v1 <<< 2) ||| (v2 >>> 4), ((v2 &&& 15) <<< 4) ||| (v3 >>> 2)]
            else none
          else
            match b64Value c4 with
            | some v4 =>
              (base64DecodeChars rest).map
                (fun tail => ((v1 <<< 2) ||| (v2 >>> 4)) ::
                  (((v2 &&& 15) <<< 4) ||| (v3 >>> 2)) ::
                  (((v3 &&& 3) <<< 6) ||| v4) :: tail)
            | none => none
        | none => none
    | _, _ => none
  | _ => none

/-- Base64-decode a string's characters. -/
def base64Decode (s : String) : Option (List Nat) := base64DecodeChars s.toList

/-! ## WebSocket handshake validation (`dialWebSocket`, `computeWebSocketAccept`) -/

/-- The bytes of a string as Go's `[]byte(s)` conversion produces them.
Every string this model hashes (base64 client keys and the magic GUID) is
ASCII, where the UTF-8 bytes are exactly the code points. -/
def strBytes (s : String) : List Nat := s.toList.map (fun c => c.toNat)

/-- The fixed GUID of RFC 6455 (`websocketMagicGUID` in `cdp_client.go`). -/
def websocketMagicGUID : String := "258EAFA5-E914-47DA-95CA-C5AB0DC85B11"

/-- Go `strings.ToLower` restricted to ASCII (every header token the
handshake compares is ASCII). -/
def goToLower (s : String) : String := String.mk (s.toList.map Char.toLower)

/-- Go `strings.Contains`. -/
def goContains (s sub : String) : Bool := decide (sub.toList <:+: s.toList)

/-- The translation of `computeWebSocketAccept`: base64 of the SHA-1 of the
client key concatenated with the magic GUID. -/
def computeWebSocketAccept (key : String) : String :=
  base64Encode (sha1 (strBytes (key ++ websocketMagicGUID)))

/-- The handshake-relevant fields of the HTTP upgrade response read by
`dialWebSocket`. -/
structure handshakeResponse where
  statusCode : Nat
  connectionHeader : String
  upgradeHeader : String
  secWebSocketAccept : String
deriving DecidableEq

/-- The four handshake failure cases of `dialWebSocket` (lines 288-304). -/
inductive handshakeError where
  | badStatus
  | missingConnectionUpgrade
  | missingUpgradeWebsocket
  | invalidAcceptKey
deriving DecidableEq

/-- Outcome of `dialWebSocket`'s response validation: whether the connection
was closed and which handshake error (if any) was returned. -/
structure handshakeCheck where
  connClosed : Bool
  err : Option handshakeError
deriving DecidableEq

/-- The translation of `dialWebSocket`'s response validation (lines 288-311):
each failing check closes the connection and returns a handshake error;
passing all four checks keeps the connection open. -/
def validateHandshake (key : String) (r : handshakeResponse) : handshakeCheck :=
  if r.statusCode ≠ 101 then ⟨true, some .badStatus⟩
  else if ¬ goContains (goToLower r.connectionHeader) "upgrade" then
    ⟨true, some .missingConnectionUpgrade⟩
  else if ¬ goContains (goToLower r.upgradeHeader) "websocket" then
    ⟨true, some .missingUpgradeWebsocket⟩
  else if r.secWebSocketAccept ≠ computeWebSocketAccept key then
    ⟨true, some .invalidAcceptKey⟩
  else ⟨false, none⟩

/-! ## WebSocket frames (`readFrame`, `readMessage`, `writeFrame`) -/

/-- A parsed WebSocket frame as `readFrame` decodes it from the wire: FIN
bit, opcode (low nibble of the first header byte), mask bit, payload bytes. -/
structure wsFrame where
  fin : Bool
  opcode : Nat
  masked : Bool
  payload : List Nat
deriving DecidableEq

/-- The protocol errors `readFrame`/`readMessage`/`writeControlFrame` can
raise (each corresponds to one `errors.New`/`fmt.Errorf` site). -/
inductive wsError where
  | maskedServerFrame
  | continuationWithoutStart
  | dataFrameWhilePending
  | unexpectedBinaryFrame
  | controlFrameTooLarge
  | unsupportedOpcode (op : Nat)
deriving DecidableEq

/-- What a call to `readMessage` produces: a complete message, an
end-of-stream condition (close frame, `io.EOF`), a protocol error, or —
in this finite-stream model — exhaustion of the supplied frames before a
message was complete (in Go the read would still be blocked). -/
inductive readMessageResult where
  | message (payload : List Nat)
  | closed
  | error (e : wsError)
  | truncated
deriving DecidableEq

/-- The translation of `readFrame`'s mask check (line 412): a server frame
with the mask bit set is a protocol error; otherwise the frame's decoded
parts are returned. -/
def readFrameChecked (f : wsFrame) : Except wsError (Bool × Nat × List Nat) :=
  if f.masked then .error .maskedServerFrame
  else .ok (f.fin, f.opcode, f.payload)

/-- The translation of `readMessage`'s assembly loop (lines 341-387) over a
finite list of incoming frames, carrying the accumulated `message` bytes and
the `collecting` flag. -/
def readMessageLoop : List wsFrame → List Nat → Bool → readMessageResult
  | [], _, _ => .truncated
  | f :: rest, message, collecting =>
    match readFrameChecked f with
    | .error e => .error e
    | .ok (fin, opcode, payload) =>
      if opcode = 0x0 then
        if ¬ collecting then .error .continuationWithoutStart
        else if fin then .message (message ++ payload)
        else readMessageLoop rest (message ++ payload) true
      else if opcode = 0x1 then
        if collecting then .error .dataFrameWhilePending
        else if fin then .message (message ++ payload)
        else readMessageLoop rest (message ++ payload) true
      else if opcode = 0x2 then .error .unexpectedBinaryFrame
      else if opcode = 0x8 then .closed
      else if opcode = 0x9 then
        if payload.length > 125 then .error .controlFrameTooLarge
        else readMessageLoop rest message collecting
      else if opcode = 0xA then readMessageLoop rest message collecting
      else .error (.unsupportedOpcode opcode)

/-- `readMessage` starts with an empty accumulator and `collecting = false`. -/
def readMessage (frames : List wsFrame) : readMessageResult :=
  readMessageLoop frames [] false

/-- The translation of `writeFrame` (lines 463-517): first header byte from
FIN and opcode, length in 7-bit form for lengths up to 125, 16-bit form up
to 65535 and 64-bit form beyond, always with the mask bit set, followed by
the 4-byte mask key and the XOR-masked payload. -/
def writeFrame (opcode : Nat) (payload : List Nat) (fin : Bool)
    (maskKey : List Nat) : List Nat :=
  let payloadLen := payload.length
  let b0 := if fin then 0x80 ||| opcode else opcode
  let header : Nat × List Nat :=
    if payloadLen ≤ 125 then (0x80 ||| payloadLen, [])
    else if payloadLen ≤ 65535 then (0x80 ||| 126, beBytes 2 payloadLen)
    else (0x80 ||| 127, beBytes 8 payloadLen)
  b0 :: header.1 :: (header.2 ++ maskKey ++ maskBytes maskKey 0 payload)

/-- `writeTextMessage` writes one final text frame (opcode 0x1). The random
mask key is a parameter of the model. -/
def writeTextMessage (payload maskKey : List Nat) : List Nat :=
  writeFrame 0x1 payload true maskKey

/-- Modelled from the spec: a conformant peer's unmasked read of a single
client frame (RFC 6455 server-side parse; the peer is Chromium, outside this
repository). It decodes FIN and opcode, requires the mask bit, reads the
extended length, the 4-byte mask key and exactly the announced number of
payload bytes, and XOR-unmasks them with the key rotating modulo 4. -/
def peerReadFrame (bytes : List Nat) : Option (Bool × Nat × List Nat) :=
  match bytes with
  | b0 :: b1 :: rest =>
    let fin := b0 / 128 % 2 = 1
    let opcode := b0 % 16
    if b1 / 128 % 2 ≠ 1 then none
    else
      let len7 := b1 % 128
      let extLen := if len7 = 126 then 2 else if len7 = 127 then 8 else 0
      if rest.length < extLen + 4 then none
      else
        let payloadLen := if extLen = 0 then len7 else beVal (rest.take extLen)
        let afterLen := rest.drop extLen
        let key := afterLen.take 4
        let maskedPayload := afterLen.drop 4
        if maskedPayload.length ≠ payloadLen then none
        else some (fin, opcode, maskBytes key 0 maskedPayload)
  | _ => none

/-! ## CDP request/response matching (`cdpClient.Call`) -/

/-- A CDP error object (`cdpError` in `cdp_client.go`). -/
structure cdpError where
  code : Int
  message : String
deriving DecidableEq

/-- A parsed CDP response (`cdpResponse`): id, raw `result` payload bytes
(`[]` when absent or empty) and optional error object. -/
structure cdpResponse where
  id : Int
  result : List Nat
  error : Option cdpError
deriving DecidableEq

/-- One iteration's input to `Call`'s receive loop: the read fails, the read
bytes fail to unmarshal, or a response is parsed. -/
inductive inEvent where
  | readErr
  | parseErr
  | resp (r : cdpResponse)
deriving DecidableEq

/-- What `Call` returns: success (recording whether the out-parameter was
populated), a CDP protocol error carrying code and message, a transport
(read/write/parse/unmarshal/cancellation) error, or — in this finite-stream
model — exhaustion of the stream while still waiting. -/
inductive callResult where
  | ok (outPopulated : Bool)
  | cdpErr (code : Int) (message : String)
  | transportErr
  | blocked
deriving DecidableEq

/-- The translation of `Call`'s receive loop (lines 125-149): read a
message; propagate read and unmarshal errors; discard responses whose id is
0 or differs from this call's id and continue; on the matching response
return its error as a CDP error, else unmarshal the result into the
out-parameter when that parameter is non-nil and the payload non-empty
(`unmarshalOk` says whether that unmarshal succeeds). -/
def callLoop (thisId : Int) (outNonNil : Bool) (unmarshalOk : List Nat → Bool) :
    List inEvent → callResult
  | [] => .blocked
  | .readErr :: _ => .transportErr
  | .parseErr :: _ => .transportErr
  | .resp r :: rest =>
    if r.id = 0 then callLoop thisId outNonNil unmarshalOk rest
    else if r.id ≠ thisId then callLoop thisId outNonNil unmarshalOk rest
    else
      match r.error with
      | some e => .cdpErr e.code e.message
      | none =>
        if outNonNil ∧ r.result.length > 0 then
          if unmarshalOk r.result then .ok true else .transportErr
        else .ok false

/-- An event the loop discards silently: a parsed response whose id is 0 or
differs from this call's id. -/
def discardedEvent (thisId : Int) (e : inEvent) : Prop :=
  ∃ r, e = inEvent.resp r ∧ (r.id = 0 ∨ r.id ≠ thisId)

/-- Whether a parsed response with the given id occurs in the stream. -/
def hasMatchingResp (thisId : Int) (evs : List inEvent) : Bool :=
  evs.any fun e =>
    match e with
    | .resp r => r.id == thisId
    | _ => false

/-! ## CDP call id assignment (`Call`, line 110) -/

/-- Reduction of an integer into Go's `int64` range (two's complement
wraparound, as `atomic.AddInt64` overflows). -/
def int64Wrap (x : Int) : Int := (x + 2 ^ 63) % 2 ^ 64 - 2 ^ 63

/-- The id `atomic.AddInt64(&c.nextID, 1)` assigns from the previous counter
value: the incremented counter, which is also the new counter value. -/
def nextCallId (nextID : Int) : Int := int64Wrap (nextID + 1)

/-- The ids assigned by `n` successive `Call` invocations starting from
counter value `st`. -/
def callIdsAux : Nat → Int → List Int
  | 0, _ => []
  | n + 1, st => nextCallId st :: callIdsAux n (nextCallId st)

/-- The ids assigned by the first `n` `Call` invocations on a fresh
`cdpClient` (`nextID` starts at Go's zero value). -/
def callIds (n : Nat) : List Int := callIdsAux n 0

/-! ## Go error values returned by `Call` (for the error-typing claim) -/

/-- The dynamic Go type of an error value relevant to `Call`'s failure
modes. `fmt.Errorf` without a `%w` verb and `errors.New` both produce a
`*errors.errorString`. -/
inductive goErrorType where
  | errorString
  | netOpError
  | jsonSyntaxError
deriving DecidableEq

/-- A Go error value: its dynamic type and its message. -/
structure goError where
  ty : goErrorType
  msg : String
deriving DecidableEq

/-- The error `Call` returns for a matching response that carries a CDP
error object (line 141): `fmt.Errorf("cdp %s error %d: %s", method,
resp.Error.Code, resp.Error.Message)`, a plain string error. -/
def cdpCallError (method : String) (code : Int) (message : String) : goError :=
  ⟨.errorString, "cdp " ++ method ++ " error " ++ toString code ++ ": " ++ message⟩

/-- Go's `context.Canceled` (stdlib: `errors.New("context canceled")`), the
cancellation error `Call` propagates verbatim from `ctx.Err()`. -/
def contextCanceledError : goError := ⟨.errorString, "context canceled"⟩

/-! ## DevTools endpoint resolver (`chromeResolver.wsURL`) -/

/-- The resolver state: explicit override URL (`CHROME_WS`), cached URL with
its discovery timestamp, and the cache TTL. Timestamps are an abstract
integer clock. -/
structure resolverState where
  ws : String
  cachedWS : String
  cachedAt : Int
  cacheTTL : Int
deriving DecidableEq

/-- Outcome of the (at most one) HTTP GET against `<endpoint>/json/version`:
a transport/request error, or a response with its status code and — when the
JSON body decodes — the `webSocketDebuggerUrl` field (possibly empty). -/
inductive versionFetch where
  | fetchError
  | response (statusCode : Nat) (decoded : Option String)
deriving DecidableEq

/-- The errors `wsURL` can return. -/
inductive wsURLError where
  | requestError
  | unexpectedStatus (code : Nat)
  | decodeError
  | missingDebuggerURL
deriving DecidableEq

/-- What one `wsURL` call produces: its result, the resolver state
afterwards, and how many HTTP GETs were issued. -/
structure wsURLOutcome where
  result : Except wsURLError String
  state : resolverState
  httpCalls : Nat

/-- The translation of `getCachedWS` (lines 143-154): the cached URL when it
is non-empty and `time.Since(cachedAt) < cacheTTL`, else the empty string. -/
def getCachedWS (st : resolverState) (now : Int) : String :=
  if st.cachedWS = "" then ""
  else if st.cacheTTL ≤ now - st.cachedAt then ""
  else st.cachedWS

/-- The translation of `setCachedWS` (lines 157-162). -/
def setCachedWS (st : resolverState) (ws : String) (now : Int) : resolverState :=
  { st with cachedWS := ws, cachedAt := now }

/-- The translation of `wsURL` (lines 45-89): explicit override first, then
the cache fast path, then discovery via one HTTP GET whose outcome is the
`fetch` parameter; a successful discovery stores the URL in the cache. -/
def wsURL (st : resolverState) (now : Int) (fetch : versionFetch) : wsURLOutcome :=
  if st.ws ≠ "" then ⟨.ok st.ws, st, 0⟩
  else if getCachedWS st now ≠ "" then ⟨.ok (getCachedWS st now), st, 0⟩
  else
    match fetch with
    | .fetchError => ⟨.error .requestError, st, 1⟩
    | .response statusCode decoded =>
      if statusCode ≠ 200 then ⟨.error (.unexpectedStatus statusCode), st, 1⟩
      else
        match decoded with
        | none => ⟨.error .decodeError, st, 1⟩
        | some url =>
          if url = "" then ⟨.error .missingDebuggerURL, st, 1⟩
          else ⟨.ok url, setCachedWS st url now, 1⟩

/-! ## Query parameter parsing (`parsePDFOptions`, `getQueryValue`) -/

/-- The options record built by `parsePDFOptions` (`pdfOptions` in
`constants.go`). `α` stands for Go's `float64`: the parse claims are about
which fields are set, not about float arithmetic, so the float value type
and its parser are parameters of the model. -/
structure pdfOptions (α : Type) where
  Landscape : Option Bool := none
  Scale : Option α := none
  PaperWidth : Option α := none
  PaperHeight : Option α := none
  MarginTop : Option α := none
  MarginBottom : Option α := none
  MarginLeft : Option α := none
  MarginRight : Option α := none
  PrintBackground : Option Bool := none
  PageRanges : String := ""
deriving DecidableEq

/-- The options record with every field unset (Go's zero value). -/
def emptyPdfOptions (α : Type) : pdfOptions α := {}

/-- The translation of `getQueryValue`: the first element of the key's value
list when the key is present with a non-empty list, else the empty string
(also for a nil map). A query map is an association list, as Go's
`url.Values`. -/
def getQueryValue (values : List (String × List String)) (key : String) : String :=
  match List.lookup key values with
  | some (v :: _) => v
  | _ => ""

/-- One option field of `parsePDFOptions`: its query key and its combined
parse-and-assign step — `app v` is `none` when the field's parser rejects
`v`, else the record update the source performs. -/
structure fieldSpec (α : Type) where
  key : String
  app : String → Option (pdfOptions α → pdfOptions α)

/-- The translation of one `if value := getQueryValue(...); value != ""`
block of `parsePDFOptions`: skip when the value is empty, fail with
`invalid <key>` when the parser rejects it, else assign the parsed value. -/
def applyField (values : List (String × List String)) (s : fieldSpec α)
    (o : pdfOptions α) : pdfOptions α × Option String :=
  let value := getQueryValue values s.key
  if value = "" then (o, none)
  else
    match s.app value with
    | none => (o, some ("invalid " ++ s.key))
    | some set => (set o, none)

/-- Run the option field blocks in source order, returning early (as the
source's `return options, fmt.Errorf(...)` does) on the first failure. -/
def runFields (values : List (String × List String)) :
    List (fieldSpec α) → pdfOptions α × Option String → pdfOptions α × Option String
  | [], r => r
  | s :: rest, r =>
    match r with
    | (o, some e) => (o, some e)
    | (o, none) => runFields values rest (applyField values s o)

/-- The nine parsed option fields of `parsePDFOptions` in source order, each
entry the translation of one source block (`pb` is `strconv.ParseBool`, `pf`
is `strconv.ParseFloat`). -/
def pdfFieldSpecs (pb : String → Option Bool) (pf : String → Option α) :
    List (fieldSpec α) :=
  [ ⟨"landscape", fun v => (pb v).map (fun b o => { o with Landscape := some b })⟩,
    ⟨"scale", fun v => (pf v).map (fun x o => { o with Scale := some x })⟩,
    ⟨"paper_width", fun v => (pf v).map (fun x o => { o with PaperWidth := some x })⟩,
    ⟨"paper_height", fun v => (pf v).map (fun x o => { o with PaperHeight := some x })⟩,
    ⟨"margin_top", fun v => (pf v).map (fun x o => { o with MarginTop := some x })⟩,
    ⟨"margin_bottom", fun v => (pf v).map (fun x o => { o with MarginBottom := some x })⟩,
    ⟨"margin_left", fun v => (pf v).map (fun x o => { o with MarginLeft := some x })⟩,
    ⟨"margin_right", fun v => (pf v).map (fun x o => { o with MarginRight := some x })⟩,
    ⟨"print_background", fun v => (pb v).map (fun b o => { o with PrintBackground := some b })⟩ ]

/-- The translation of `parsePDFOptions` (lines 462-540 of `main.go`): run
the nine field blocks in order; on success also copy `page_ranges` (never
validated) into the record. As in Go, the error case returns the record as
built so far alongside the error message. -/
def parsePDFOptions (pb : String → Option Bool) (pf : String → Option α)
    (values : List (String × List String)) : pdfOptions α × Option String :=
  match runFields values (pdfFieldSpecs pb pf) (emptyPdfOptions α, none) with
  | (o, some e) => (o, some e)
  | (o, none) => ({ o with PageRanges := getQueryValue values "page_ranges" }, none)

/-- Go's `strconv.ParseBool` (stdlib; used to instantiate `pb` in concrete
witnesses). -/
def goParseBool (s : String) : Option Bool :=
  match s with
  | "1" | "t" | "T" | "true" | "TRUE" | "True" => some true
  | "0" | "f" | "F" | "false" | "FALSE" | "False" => some false
  | _ => none

/-- A small decimal parser standing in for `strconv.ParseFloat` in concrete
witnesses (the structural claims hold for every parser; this one is
executable inside the kernel). -/
def witDigits (s : String) : Option Nat :=
  let cs := s.toList
  if cs ≠ [] ∧ cs.all (fun c => 48 ≤ c.toNat ∧ c.toNat ≤ 57) then
    some (cs.foldl (fun acc c => acc * 10 + (c.toNat - 48)) 0)
  else none

/-- Whether a field spec is the first-failing kind of field for this query
map: its value is present and non-empty yet its parser rejects it. -/
def fieldInvalid (values : List (String × List String)) (s : fieldSpec α) : Bool :=
  getQueryValue values s.key ≠ "" ∧ (s.app (getQueryValue values s.key)).isNone

/-- The key of the first field (in source order) whose non-empty value is
unparseable. -/
def firstInvalidKey (values : List (String × List String))
    (ss : List (fieldSpec α)) : Option String :=
  ((ss.find? (fieldInvalid values)).map fieldSpec.key)

/-- The value a parsed option field must end up with: unset when the query
value is absent or empty, else the parser's output. -/
def presentOpt (p : String → Option β) (values : List (String × List String))
    (key : String) : Option β :=
  if getQueryValue values key = "" then none else p (getQueryValue values key)

/-- Apply the field blocks ignoring failures (used to state what the record
looks like): the fold the success path of `runFields` performs. -/
def applyFields (values : List (String × List String)) (ss : List (fieldSpec α))
    (o : pdfOptions α) : pdfOptions α :=
  ss.foldl (fun acc s => (applyField values s acc).1) o

/-- Whether a key is present in the query map (regardless of its values). -/
def hasQueryKey (values : List (String × List String)) (key : String) : Bool :=
  (List.lookup key values).isSome

/-- Truncate every value list of a query map to its first element. -/
def firstValuesOnly (values : List (String × List String)) :
    List (String × List String) :=
  values.map (fun kv => (kv.1, kv.2.take 1))

/-! ## Rendering pipeline output (`renderPDF`, spec-modelled) -/

/-- The failure modes of the rendering pipeline's final stage. -/
inductive renderDataError where
  | missingData
  | invalidBase64
deriving DecidableEq

/-- Modelled from the spec: the final stage (§4.4 steps 9-10) of the
handwritten `renderPDF` pipeline, whose implementation is not among the
repository's files — only its `pdfRenderer` type (`constants.go`), its
callers and its CDP helpers are. Per the spec, a missing `data` field of the
`Page.printToPDF` response is a fatal protocol error, and otherwise `data`
is base64-decoded and the decoded bytes are returned. -/
def renderPDFData (data : String) : Except renderDataError (List Nat) :=
  if data = "" then .error .missingData
  else
    match base64Decode data with
    | none => .error .invalidBase64
    | some bytes => .ok bytes

/-! ## Helper lemmas -/

theorem maskBytes_length (key : List Nat) (i : Nat) (bs : List Nat) :
    (maskBytes key i bs).length = bs.length := by
  induction bs generalizing i with
  | nil => rfl
  | cons b rest ih => simp [maskBytes, ih]

theorem maskBytes_maskBytes (key : List Nat) (i : Nat) (bs : List Nat) :
    maskBytes key i (maskBytes key i bs) = bs := by
  induction bs generalizing i with
  | nil => rfl
  | cons b rest ih => simp [maskBytes, ih, Nat.xor_cancel_right]

theorem beBytes_length (k n : Nat) : (beBytes k n).length = k := by
  induction k generalizing n with
  | zero => rfl
  | succ k ih => simp [beBytes, ih]

theorem beVal_beBytes (k n : Nat) : beVal (beBytes k n) = n % 2 ^ (8 * k) := by
  induction k generalizing n with
  | zero => simp [beBytes, beVal, Nat.mod_one]
  | succ k ih =>
    have h256 : (256 : Nat) ^ k = 2 ^ (8 * k) := by
      rw [show (256 : Nat) = 2 ^ 8 by norm_num, ← pow_mul]
    rw [beBytes, beVal, ih, beBytes_length, h256, Nat.shiftRight_eq_div_pow,
      show 8 * (k + 1) = 8 * k + 8 by ring, pow_add,
      Nat.mod_mul, show (2 : Nat) ^ 8 = 256 by norm_num]
    ring

theorem lor_128 : ∀ n < 128, 128 ||| n = 128 + n := by decide

/-! ## C4: readMessage protocol errors -/

/-- Claim C4 (confirmed): `readMessage` fails — returning a protocol error
and no message — on a frame with the mask bit set (in any assembly state),
on a continuation frame with no preceding unfinished data frame, on a binary
frame (in any assembly state), and on a second starting data frame while
assembly of a fragmented message is pending. -/
theorem c4_readMessage_protocol_errors :
    (∀ (f : wsFrame) (rest : List wsFrame) (msg : List Nat) (col : Bool),
      f.masked = true →
      readMessageLoop (f :: rest) msg col = .error .maskedServerFrame)
    ∧ (∀ (f : wsFrame) (rest : List wsFrame),
      f.masked = false → f.opcode = 0x0 →
      readMessage (f :: rest) = .error .continuationWithoutStart)
    ∧ (∀ (f : wsFrame) (rest : List wsFrame) (msg : List Nat) (col : Bool),
      f.masked = false → f.opcode = 0x2 →
      readMessageLoop (f :: rest) msg col = .error .unexpectedBinaryFrame)
    ∧ (∀ (f g : wsFrame) (rest : List wsFrame),
      f.masked = false → f.opcode = 0x1 → f.fin = false →
      g.masked = false → g.opcode = 0x1 →
      readMessage (f :: g :: rest) = .error .dataFrameWhilePending) := by
  refine ⟨?_, ?_, ?_, ?_⟩
  · intro f rest msg col hm
    simp [readMessageLoop, readFrameChecked, hm]
  · intro f rest hm hop
    simp [readMessage, readMessageLoop, readFrameChecked, hm, hop]
  · intro f rest msg col hm hop
    simp [readMessageLoop, readFrameChecked, hm, hop]
  · intro f g rest hfm hfop hffin hgm hgop
    simp [readMessage, readMessageLoop, readFrameChecked, hfm, hfop, hffin, hgm, hgop]

/-- Witness for C4 at concrete frames. -/
theorem c4_witness :
    readMessageLoop [⟨true, 0x1, true, [1]⟩] [] false = .error .maskedServerFrame
    ∧ readMessage [⟨true, 0x0, false, [1]⟩] = .error .continuationWithoutStart
    ∧ readMessageLoop [⟨true, 0x2, false, []⟩] [] false = .error .unexpectedBinaryFrame
    ∧ readMessage [⟨false, 0x1, false, [1]⟩, ⟨true, 0x1, false, [2]⟩] =
        .error .dataFrameWhilePending :=
  ⟨c4_readMessage_protocol_errors.1 _ _ _ _ rfl,
   c4_readMessage_protocol_errors.2.1 _ _ rfl rfl,
   c4_readMessage_protocol_errors.2.2.1 _ _ _ _ rfl rfl,
   c4_readMessage_protocol_errors.2.2.2 _ _ _ rfl rfl rfl rfl rfl⟩

/-! ## C2: call id assignment -/

theorem int64Wrap_eq (x : Int) (h1 : -(2 ^ 63) ≤ x) (h2 : x < 2 ^ 63) :
    int64Wrap x = x := by
  unfold int64Wrap
  simp only [show (2 : Int) ^ 63 = 9223372036854775808 from by norm_num,
    show (2 : Int) ^ 64 = 18446744073709551616 from by norm_num] at h1 h2 ⊢
  omega

theorem callIdsAux_eq (n : Nat) : ∀ (j : Nat), j + n < 2 ^ 63 →
    callIdsAux n (j : Int) = (List.range n).map (fun (k : Nat) => (j : Int) + (k : Int) + 1) := by
  induction n with
  | zero => intro j _; rfl
  | succ n ih =>
    intro j hj
    have hwrap : nextCallId (j : Int) = ((j + 1 : Nat) : Int) := by
      unfold nextCallId
      rw [int64Wrap_eq]
      · push_cast; ring
      · have : (0 : Int) ≤ (j : Int) := Int.ofNat_nonneg j
        omega
      · have hle : (j : Int) + 1 < 2 ^ 63 := by
          have : ((j + (n + 1) : Nat) : Int) < ((2 ^ 63 : Nat) : Int) := by
            exact_mod_cast hj
          push_cast at this ⊢
          omega
        omega
    rw [callIdsAux, hwrap, ih (j + 1) (by omega), List.range_succ_eq_map,
      List.map_cons, List.map_map]
    refine congrArg₂ List.cons ?_ ?_
    · push_cast; ring
    · apply List.map_congr_left
      intro k _
      simp only [Function.comp_apply]
      push_cast; ring

/-- Claim C2 (confirmed): over any sequence of `n` calls on one `cdpClient`
(within the physically reachable range `n < 2^63` of the `int64` counter),
the assigned ids are `1, 2, …, n` — the k-th call gets id `k` counting from
1 — hence strictly increasing, pairwise distinct and never zero. -/
theorem c2_call_ids_strictly_increasing (n : Nat) (hn : n < 2 ^ 63) :
    callIds n = (List.range n).map (fun (k : Nat) => (k : Int) + 1)
    ∧ List.Pairwise (· < ·) (callIds n)
    ∧ (callIds n).Nodup
    ∧ ∀ i ∈ callIds n, i ≠ 0 := by
  have h0 : callIds n = (List.range n).map (fun (k : Nat) => (k : Int) + 1) := by
    have := callIdsAux_eq n 0 (by omega)
    simpa [callIds] using this
  have hpair : List.Pairwise (· < ·) (callIds n) := by
    rw [h0]
    apply List.pairwise_map.mpr
    refine (List.pairwise_lt_range n).imp ?_
    intro a b hab
    omega
  refine ⟨h0, hpair, ?_, ?_⟩
  · exact hpair.imp (fun h => ne_of_lt h)
  · intro i hi
    rw [h0] at hi
    obtain ⟨k, -, rfl⟩ := List.mem_map.mp hi
    omega

/-- Witness for C2 at `n = 5`. -/
theorem c2_witness : 5 < 2 ^ 63 ∧ callIds 5 = [1, 2, 3, 4, 5] := by
  refine ⟨by norm_num, ?_⟩
  rw [(c2_call_ids_strictly_increasing 5 (by norm_num)).1]
  decide

/-! ## C1: Call's response matching loop -/

theorem callLoop_skip (thisId : Int) (o : Bool) (u : List Nat → Bool)
    (r : cdpResponse) (rest : List inEvent) (h : r.id = 0 ∨ r.id ≠ thisId) :
    callLoop thisId o u (.resp r :: rest) = callLoop thisId o u rest := by
  by_cases h0 : r.id = 0
  · simp [callLoop, h0]
  · rcases h with h | h
    · exact absurd h h0
    · simp [callLoop, h0, h]

theorem callLoop_reach (thisId : Int) (o : Bool) (u : List Nat → Bool) :
    ∀ (pre rest : List inEvent), (∀ e ∈ pre, discardedEvent thisId e) →
    callLoop thisId o u (pre ++ rest) = callLoop thisId o u rest := by
  intro pre
  induction pre with
  | nil => intro rest _; rfl
  | cons e pre ih =>
    intro rest hpre
    obtain ⟨r, rfl, hr⟩ := hpre e (by simp)
    rw [List.cons_append, callLoop_skip thisId o u r _ hr]
    exact ih rest (fun x hx => hpre x (by simp [hx]))

theorem callLoop_match (thisId : Int) (o : Bool) (u : List Nat → Bool)
    (r : cdpResponse) (rest : List inEvent) (h0 : r.id ≠ 0) (hid : r.id = thisId)
    (herr : r.error = none) (hu : o = true ∧ r.result ≠ [] → u r.result = true) :
    callLoop thisId o u (.resp r :: rest) = .ok (o && !r.result.isEmpty) := by
  simp only [callLoop, if_neg h0, if_neg (show ¬ r.id ≠ thisId from fun hh => hh hid), herr]
  cases o with
  | false => simp
  | true =>
    by_cases hres : r.result = []
    · simp [hres]
    · have hlen : 0 < r.result.length := List.length_pos.mpr hres
      have hu2 := hu ⟨rfl, hres⟩
      simp [hres, hlen, hu2]

theorem callLoop_ok_iff (thisId : Int) (o : Bool) (u : List Nat → Bool)
    (hid : thisId ≠ 0) (evs : List inEvent) :
    (∃ p, callLoop thisId o u evs = .ok p) ↔
    (∃ pre r rest, evs = pre ++ inEvent.resp r :: rest ∧
      (∀ e ∈ pre, discardedEvent thisId e) ∧
      r.id = thisId ∧ r.error = none ∧
      (o = true ∧ r.result ≠ [] → u r.result = true)) := by
  constructor
  · intro hok
    induction evs with
    | nil => simp [callLoop] at hok
    | cons e rest ih =>
      cases e with
      | readErr => simp [callLoop] at hok
      | parseErr => simp [callLoop] at hok
      | resp r =>
        by_cases hskip : r.id = 0 ∨ r.id ≠ thisId
        · rw [callLoop_skip thisId o u r rest hskip] at hok
          obtain ⟨pre, r2, rest2, heq, hpre, hrest⟩ := ih hok
          refine ⟨inEvent.resp r :: pre, r2, rest2, by simp [heq], ?_, hrest⟩
          intro x hx
          rcases List.mem_cons.mp hx with rfl | hx
          · exact ⟨r, rfl, hskip⟩
          · exact hpre x hx
        · push_neg at hskip
          obtain ⟨hnz, hmatch⟩ := hskip
          cases herr : r.error with
          | some err =>
            simp only [callLoop, if_neg hnz,
              if_neg (show ¬ r.id ≠ thisId from fun hh => hh hmatch), herr] at hok
            obtain ⟨p, hp⟩ := hok
            exact absurd hp (by simp)
          | none =>
            refine ⟨[], r, rest, rfl, by simp, hmatch, herr, ?_⟩
            rintro ⟨ho, hres⟩
            subst ho
            cases hv : u r.result with
            | true => rfl
            | false =>
              exfalso
              have hlen : 0 < r.result.length := List.length_pos.mpr hres
              obtain ⟨p, hp⟩ := hok
              simp only [callLoop, if_neg hnz,
                if_neg (show ¬ r.id ≠ thisId from fun hh => hh hmatch), herr] at hp
              rw [if_pos ⟨trivial, hlen⟩, if_neg (by simp [hv])] at hp
              exact absurd hp (by simp)
  · rintro ⟨pre, r, rest, rfl, hpre, hmatch, herr, hu⟩
    rw [callLoop_reach thisId o u pre _ hpre,
      callLoop_match thisId o u r rest (hmatch ▸ hid) hmatch herr hu]
    exact ⟨_, rfl⟩

/-- Claim C1 (corrected): the receive loop of `Call` discards every response
whose id is 0 or differs from the assigned id and keeps reading; it returns
successfully exactly when a matching response with NO error object is
received (and any required result unmarshal succeeds) — a matching response
carrying an error object makes `Call` fail, so success is not equivalent to
mere receipt of a matching response; on a matching error-free response the
out-parameter is populated if and only if it is non-nil and the result
payload is non-empty. -/
theorem c1_call_response_matching (thisId : Int) (outNonNil : Bool)
    (u : List Nat → Bool) (hid : thisId ≠ 0) :
    (∀ (r : cdpResponse) (rest : List inEvent), (r.id = 0 ∨ r.id ≠ thisId) →
      callLoop thisId outNonNil u (.resp r :: rest) = callLoop thisId outNonNil u rest)
    ∧ (∀ evs : List inEvent,
        (∃ p, callLoop thisId outNonNil u evs = .ok p) ↔
        (∃ pre r rest, evs = pre ++ inEvent.resp r :: rest ∧
          (∀ e ∈ pre, discardedEvent thisId e) ∧
          r.id = thisId ∧ r.error = none ∧
          (outNonNil = true ∧ r.result ≠ [] → u r.result = true)))
    ∧ (∀ (r : cdpResponse) (rest : List inEvent),
        r.id = thisId → r.error = none →
        (outNonNil = true ∧ r.result ≠ [] → u r.result = true) →
        callLoop thisId outNonNil u (.resp r :: rest) =
          .ok (outNonNil && !r.result.isEmpty)) :=
  ⟨fun r rest h => callLoop_skip thisId outNonNil u r rest h,
   fun evs => callLoop_ok_iff thisId outNonNil u hid evs,
   fun r rest hm herr hu =>
     callLoop_match thisId outNonNil u r rest (hm ▸ hid) hm herr hu⟩

/-- Counterexample to C1 as stated: a stream delivering a response with the
matching id that carries a CDP error object. The matching response has been
received, yet `Call` does not return successfully (it returns the CDP
error). -/
theorem c1_counterexample :
    hasMatchingResp 1 [inEvent.resp ⟨1, [], some ⟨-32000, "boom"⟩⟩] = true
    ∧ callLoop 1 false (fun _ => true) [inEvent.resp ⟨1, [], some ⟨-32000, "boom"⟩⟩] =
        .cdpErr (-32000) "boom"
    ∧ ∀ p, callLoop 1 false (fun _ => true)
        [inEvent.resp ⟨1, [], some ⟨-32000, "boom"⟩⟩] ≠ .ok p := by
  refine ⟨rfl, rfl, ?_⟩
  intro p
  simp [callLoop]

/-- Witness for C1: a matching error-free response with a non-empty result
and a non-nil out-parameter yields success with the out-parameter
populated. -/
theorem c1_witness :
    callLoop 1 true (fun _ => true) [inEvent.resp ⟨1, [42], none⟩] = .ok true := by
  have h := (c1_call_response_matching 1 true (fun _ => true) (by decide)).2.2
    ⟨1, [42], none⟩ [] rfl rfl (fun _ => rfl)
  simpa using h

/-! ## C7: the type of the CDP protocol error -/

/-- Counterexample to C7 as stated: the error `Call` builds for a CDP error
response is produced by `fmt.Errorf` without a `%w` verb, i.e. it is a plain
`*errors.errorString` — the same dynamic Go type as the cancellation error
`context.Canceled` that `Call` propagates from the transport path, so the
two are NOT distinguishable by type. -/
theorem c7_counterexample :
    (cdpCallError "Page.printToPDF" (-32000) "Printing failed").ty =
      contextCanceledError.ty := rfl

/-- Claim C7 (corrected): the error returned for a matching CDP error
response carries the error's code and message — but only inside its
formatted message text `cdp <method> error <code>: <message>`; it is a plain
string error of the same dynamic type as `errors.New`-produced transport
errors (e.g. `context.Canceled`), so it is distinguishable from them only by
its message content, not by type. -/
theorem c7_cdp_error_text_not_type (method : String) (code : Int) (message : String) :
    (cdpCallError method code message).msg =
      "cdp " ++ method ++ " error " ++ toString code ++ ": " ++ message
    ∧ goContains (cdpCallError method code message).msg message = true
    ∧ goContains (cdpCallError method code message).msg (toString code) = true
    ∧ (cdpCallError method code message).ty = goErrorType.errorString
    ∧ (cdpCallError method code message).ty = contextCanceledError.ty := by
  refine ⟨rfl, ?_, ?_, rfl, rfl⟩
  · simp only [goContains, cdpCallError, decide_eq_true_eq]
    refine ⟨("cdp " ++ method ++ " error " ++ toString code ++ ": ").toList, [], ?_⟩
    simp [String.toList, String.data_append]
  · simp only [goContains, cdpCallError, decide_eq_true_eq]
    refine ⟨("cdp " ++ method ++ " error ").toList, (": " ++ message).toList, ?_⟩
    simp [String.toList, String.data_append]

/-! ## C6: resolver cache and discovery -/

/-- Claim C6 (confirmed): `wsURL` returns a configured override
unconditionally with no HTTP traffic and the cache untouched; otherwise the
cache is consulted and a cached URL is returned — with no HTTP traffic — if
and only if it is non-empty and strictly younger than the TTL (age equal to
the TTL counts as expired); otherwise exactly one HTTP GET is issued, a
successful discovery of a non-empty `webSocketDebuggerUrl` is stored in the
cache with the current timestamp and returned, and every failure (request
error, non-200 status, decode error, empty URL) returns an error with the
cache left unchanged. -/
theorem c6_wsURL_cache_discovery (st : resolverState) (now : Int)
    (fetch : versionFetch) :
    (st.ws ≠ "" → wsURL st now fetch = ⟨.ok st.ws, st, 0⟩)
    ∧ (getCachedWS st now ≠ "" ↔
        st.cachedWS ≠ "" ∧ now - st.cachedAt < st.cacheTTL)
    ∧ (getCachedWS st now ≠ "" → getCachedWS st now = st.cachedWS)
    ∧ (st.ws = "" → st.cachedWS ≠ "" → now - st.cachedAt < st.cacheTTL →
        wsURL st now fetch = ⟨.ok st.cachedWS, st, 0⟩)
    ∧ (st.ws = "" → getCachedWS st now = "" →
        (wsURL st now fetch).httpCalls = 1)
    ∧ (st.ws = "" → getCachedWS st now = "" → ∀ url, url ≠ "" →
        fetch = .response 200 (some url) →
        wsURL st now fetch = ⟨.ok url, setCachedWS st url now, 1⟩)
    ∧ (st.ws = "" → getCachedWS st now = "" → fetch = .fetchError →
        wsURL st now fetch = ⟨.error .requestError, st, 1⟩)
    ∧ (st.ws = "" → getCachedWS st now = "" →
        ∀ code dec, code ≠ 200 → fetch = .response code dec →
        wsURL st now fetch = ⟨.error (.unexpectedStatus code), st, 1⟩)
    ∧ (st.ws = "" → getCachedWS st now = "" → fetch = .response 200 none →
        wsURL st now fetch = ⟨.error .decodeError, st, 1⟩)
    ∧ (st.ws = "" → getCachedWS st now = "" → fetch = .response 200 (some "") →
        wsURL st now fetch = ⟨.error .missingDebuggerURL, st, 1⟩) := by
  have hcache : getCachedWS st now ≠ "" ↔
      st.cachedWS ≠ "" ∧ now - st.cachedAt < st.cacheTTL := by
    by_cases h1 : st.cachedWS = ""
    · simp [getCachedWS, h1]
    · by_cases h2 : st.cacheTTL ≤ now - st.cachedAt
      · simp [getCachedWS, h1, h2]
      · simp [getCachedWS, h1, h2]
        omega
  have hval : getCachedWS st now ≠ "" → getCachedWS st now = st.cachedWS := by
    intro h
    by_cases h1 : st.cachedWS = "" <;>
      by_cases h2 : st.cacheTTL ≤ now - st.cachedAt <;>
      simp_all [getCachedWS]
  refine ⟨?_, hcache, hval, ?_, ?_, ?_, ?_, ?_, ?_, ?_⟩
  · intro h; simp [wsURL, h]
  · intro hws h1 h2
    have h2' : ¬ st.cacheTTL ≤ now - st.cachedAt := by omega
    simp [wsURL, hws, getCachedWS, h1, h2']
  · intro hws hc
    cases fetch with
    | fetchError => simp [wsURL, hws, hc]
    | response code dec =>
      by_cases h200 : code = 200
      · cases dec with
        | none => simp [wsURL, hws, hc, h200]
        | some url =>
          by_cases hurl : url = "" <;> simp [wsURL, hws, hc, h200, hurl]
      · simp [wsURL, hws, hc, h200]
  · intro hws hc url hurl hf
    subst hf
    simp [wsURL, hws, hc, hurl]
  · intro hws hc hf
    subst hf
    simp [wsURL, hws, hc]
  · intro hws hc code dec hcode hf
    subst hf
    simp [wsURL, hws, hc, hcode]
  · intro hws hc hf
    subst hf
    simp [wsURL, hws, hc]
  · intro hws hc hf
    subst hf
    simp [wsURL, hws, hc]

/-- Witness for C6: a successful discovery on an empty cache stores and
returns the discovered URL. -/
theorem c6_witness :
    wsURL ⟨"", "", 0, 60⟩ 100 (.response 200 (some "ws://chrome/devtools")) =
      ⟨.ok "ws://chrome/devtools", ⟨"", "ws://chrome/devtools", 100, 60⟩, 1⟩ := by
  have h := (c6_wsURL_cache_discovery ⟨"", "", 0, 60⟩ 100
    (.response 200 (some "ws://chrome/devtools"))).2.2.2.2.2.1
    rfl rfl "ws://chrome/devtools" (by decide) rfl
  simpa [setCachedWS] using h

/-! ## C3: handshake validation -/

/-- Claim C3 (confirmed): the handshake succeeds (no error, connection kept)
if and only if the response has status 101, a `Connection` header containing
`upgrade` case-insensitively, an `Upgrade` header containing `websocket`
case-insensitively, and a `Sec-WebSocket-Accept` equal to the base64 of the
SHA-1 of the client key concatenated with the RFC 6455 GUID; on any mismatch
the connection is closed and a handshake error is returned. -/
theorem c3_handshake_validation (key : String) (r : handshakeResponse) :
    ((validateHandshake key r).err = none ↔
      (r.statusCode = 101 ∧
       goContains (goToLower r.connectionHeader) "upgrade" = true ∧
       goContains (goToLower r.upgradeHeader) "websocket" = true ∧
       r.secWebSocketAccept =
         base64Encode (sha1 (strBytes (key ++ websocketMagicGUID)))))
    ∧ ((validateHandshake key r).connClosed = false ↔
       (validateHandshake key r).err = none)
    ∧ (∀ e, (validateHandshake key r).err = some e →
       (validateHandshake key r).connClosed = true) := by
  simp only [validateHandshake, computeWebSocketAccept]
  split_ifs <;> simp_all

set_option maxRecDepth 1000000 in
/-- Witness for C3: the RFC 6455 example handshake is accepted, and a
response with status 200 is rejected with the connection closed. -/
theorem c3_witness :
    (validateHandshake "dGhlIHNhbXBsZSBub25jZQ=="
      ⟨101, "Upgrade", "websocket", "s3pPLMBiTxaQ9kYGzzhZRbK+xOo="⟩).err = none
    ∧ (validateHandshake "dGhlIHNhbXBsZSBub25jZQ=="
      ⟨200, "Upgrade", "websocket", "s3pPLMBiTxaQ9kYGzzhZRbK+xOo="⟩).connClosed = true := by
  constructor
  · exact (c3_handshake_validation "dGhlIHNhbXBsZSBub25jZQ==" _).1.mpr
      ⟨rfl, by decide, by decide, by decide⟩
  · exact (c3_handshake_validation "dGhlIHNhbXBsZSBub25jZQ==" _).2.2
      handshakeError.badStatus rfl

/-! ## C5: frame writing and the peer's read -/

theorem take_append_of_length (l₁ l₂ : List α) (n : Nat) (h : l₁.length = n) :
    (l₁ ++ l₂).take n = l₁ := by
  subst h; exact List.take_left l₁ l₂

theorem drop_append_of_length (l₁ l₂ : List α) (n : Nat) (h : l₁.length = n) :
    (l₁ ++ l₂).drop n = l₂ := by
  subst h; exact List.drop_left l₁ l₂

theorem peerReadFrame_writeTextMessage (payload maskKey : List Nat)
    (hk : maskKey.length = 4) (hlen : payload.length < 2 ^ 63) :
    peerReadFrame (writeTextMessage payload maskKey) =
      some (true, 0x1, payload) := by
  have hml := maskBytes_length maskKey 0 payload
  by_cases h1 : payload.length ≤ 125
  · have hb1 : 128 ||| payload.length = 128 + payload.length :=
      lor_128 payload.length (by omega)
    have hmaskbit : (128 + payload.length) / 128 % 2 = 1 := by omega
    have hlen7 : (128 + payload.length) % 128 = payload.length := by omega
    have h126 : payload.length ≠ 126 := by omega
    have h127 : payload.length ≠ 127 := by omega
    simp only [writeTextMessage, writeFrame, if_pos h1, if_true, List.nil_append, hb1]
    simp only [peerReadFrame]
    simp [hmaskbit, hlen7, h126, h127, List.length_append, hk, hml,
      take_append_of_length, drop_append_of_length, maskBytes_maskBytes]
    omega
  · by_cases h2 : payload.length ≤ 65535
    · have hb1 : (128 ||| 126 : Nat) = 254 := by decide
      have hval : beVal (beBytes 2 payload.length) = payload.length := by
        rw [beVal_beBytes]
        exact Nat.mod_eq_of_lt (by norm_num; omega)
      simp only [writeTextMessage, writeFrame, if_neg h1, if_pos h2, if_true, hb1]
      simp [peerReadFrame, hval, List.length_append, beBytes_length, hk, hml,
        take_append_of_length, drop_append_of_length, maskBytes_maskBytes,
        List.append_assoc]
      omega
    · have hb1 : (128 ||| 127 : Nat) = 255 := by decide
      have hval : beVal (beBytes 8 payload.length) = payload.length := by
        rw [beVal_beBytes]
        refine Nat.mod_eq_of_lt ?_
        calc payload.length < 2 ^ 63 := hlen
          _ ≤ 2 ^ (8 * 8) := by norm_num
      simp only [writeTextMessage, writeFrame, if_neg h1, if_neg h2, if_true, hb1]
      simp [peerReadFrame, hval, List.length_append, beBytes_length, hk, hml,
        take_append_of_length, drop_append_of_length, maskBytes_maskBytes,
        List.append_assoc]
      omega

/-- Claim C5 (confirmed): `writeTextMessage` emits one frame with FIN set
and opcode 0x1, the mask bit set, the payload length in 7-bit form up to
125 bytes, 16-bit form up to 65535 bytes and 64-bit form beyond, and
XOR-unmasking the masked payload with the embedded key (rotating modulo 4)
restores the payload exactly — a conformant peer's unmasked read returns the
payload unchanged. -/
theorem c5_writeTextMessage_framing_roundtrip (payload maskKey : List Nat)
    (hk : maskKey.length = 4) (hlen : payload.length < 2 ^ 63) :
    (writeTextMessage payload maskKey).getD 0 0 = 0x80 ||| 0x1
    ∧ ((writeTextMessage payload maskKey).getD 1 0) / 128 % 2 = 1
    ∧ (payload.length ≤ 125 →
        (writeTextMessage payload maskKey).getD 1 0 = 0x80 ||| payload.length ∧
        (writeTextMessage payload maskKey).length = 6 + payload.length)
    ∧ (126 ≤ payload.length → payload.length ≤ 65535 →
        (writeTextMessage payload maskKey).getD 1 0 = 0x80 ||| 126 ∧
        (writeTextMessage payload maskKey).length = 8 + payload.length)
    ∧ (65535 < payload.length →
        (writeTextMessage payload maskKey).getD 1 0 = 0x80 ||| 127 ∧
        (writeTextMessage payload maskKey).length = 14 + payload.length)
    ∧ maskBytes maskKey 0 (maskBytes maskKey 0 payload) = payload
    ∧ peerReadFrame (writeTextMessage payload maskKey) = some (true, 0x1, payload) := by
  have hml := maskBytes_length maskKey 0 payload
  have hrt := peerReadFrame_writeTextMessage payload maskKey hk hlen
  refine ⟨?_, ?_, ?_, ?_, ?_, maskBytes_maskBytes maskKey 0 payload, hrt⟩
  · by_cases h1 : payload.length ≤ 125
    · simp [writeTextMessage, writeFrame, if_pos h1]
    · by_cases h2 : payload.length ≤ 65535 <;>
        simp [writeTextMessage, writeFrame, h1, h2]
  · by_cases h1 : payload.length ≤ 125
    · have hb1 : 128 ||| payload.length = 128 + payload.length :=
        lor_128 payload.length (by omega)
      simp [writeTextMessage, writeFrame, if_pos h1, hb1]
      omega
    · by_cases h2 : payload.length ≤ 65535 <;>
        simp [writeTextMessage, writeFrame, h1, h2]
  · intro h1
    constructor
    · simp [writeTextMessage, writeFrame, if_pos h1]
    · simp [writeTextMessage, writeFrame, if_pos h1, List.length_append, hk, hml]
      omega
  · intro h1a h1b
    have h1 : ¬ payload.length ≤ 125 := by omega
    constructor
    · simp [writeTextMessage, writeFrame, h1, if_pos h1b]
    · simp [writeTextMessage, writeFrame, h1, if_pos h1b, List.length_append,
        beBytes_length, hk, hml]
      omega
  · intro h1a
    have h1 : ¬ payload.length ≤ 125 := by omega
    have h2 : ¬ payload.length ≤ 65535 := by omega
    constructor
    · simp [writeTextMessage, writeFrame, h1, h2]
    · simp [writeTextMessage, writeFrame, h1, h2, List.length_append,
        beBytes_length, hk, hml]
      omega

/-- Witness for C5 at a concrete payload and mask key. -/
theorem c5_witness :
    peerReadFrame (writeTextMessage [1, 2, 3] [9, 8, 7, 250]) =
      some (true, 0x1, [1, 2, 3])
    ∧ (writeTextMessage [1, 2, 3] [9, 8, 7, 250]).length = 6 + 3 :=
  ⟨(c5_writeTextMessage_framing_roundtrip [1, 2, 3] [9, 8, 7, 250] rfl
      (by norm_num)).2.2.2.2.2.2,
   ((c5_writeTextMessage_framing_roundtrip [1, 2, 3] [9, 8, 7, 250] rfl
      (by norm_num)).2.2.1 (by norm_num)).2⟩

/-! ## C9: non-empty PDF bytes -/

theorem base64DecodeChars_ne_nil :
    ∀ (cs : List Char) (bs : List Nat), base64DecodeChars cs = some bs →
      cs ≠ [] → bs ≠ [] := by
  intro cs bs h hne
  match cs, h with
  | [], h => exact absurd rfl hne
  | [c1], h => simp [base64DecodeChars] at h
  | [c1, c2], h => simp [base64DecodeChars] at h
  | [c1, c2, c3], h => simp [base64DecodeChars] at h
  | c1 :: c2 :: c3 :: c4 :: rest, h =>
    simp only [base64DecodeChars] at h
    rcases hv1 : b64Value c1 with _ | v1 <;> rw [hv1] at h <;>
      rcases hv2 : b64Value c2 with _ | v2 <;> rw [hv2] at h
    · simp at h
    · simp at h
    · simp at h
    · dsimp only at h
      by_cases h3 : c3 = '='
      · rw [if_pos h3] at h
        by_cases h4 : c4 = '=' ∧ rest = []
        · rw [if_pos h4] at h
          obtain rfl := Option.some.inj h
          simp
        · rw [if_neg h4] at h
          simp at h
      · rw [if_neg h3] at h
        rcases hv3 : b64Value c3 with _ | v3 <;> rw [hv3] at h <;> dsimp only at h
        · simp at h
        · by_cases h4 : c4 = '='
          · rw [if_pos h4] at h
            by_cases h5 : rest = []
            · rw [if_pos h5] at h
              obtain rfl := Option.some.inj h
              simp
            · rw [if_neg h5] at h
              simp at h
          · rw [if_neg h4] at h
            rcases hv4 : b64Value c4 with _ | v4 <;> rw [hv4] at h
            · simp at h
            · obtain ⟨tail, -, rfl⟩ := Option.map_eq_some'.mp h
              simp

/-- Claim C9 (confirmed, spec-modelled): whenever the rendering pipeline's
final stage returns PDF bytes without an error, the base64-decoded byte
slice is non-empty — an empty `data` field is rejected as a protocol error,
and standard base64 decoding of a non-empty string never yields zero
bytes. -/
theorem c9_renderPDF_nonempty (data : String) (bytes : List Nat)
    (h : renderPDFData data = Except.ok bytes) : bytes ≠ [] := by
  unfold renderPDFData at h
  by_cases hd : data = ""
  · simp [hd] at h
  · rw [if_neg hd] at h
    rcases hb : base64Decode data with _ | bs <;> rw [hb] at h
    · simp at h
    · simp only [Except.ok.injEq] at h
      subst h
      refine base64DecodeChars_ne_nil data.toList bs hb ?_
      intro htl
      apply hd
      cases data with
      | mk l =>
        have : l = [] := by simpa [String.toList] using htl
        simp [this]

/-- Witness for C9: decoding the base64 of `%PDF` yields non-empty bytes. -/
theorem c9_witness :
    renderPDFData "JVBERg==" = Except.ok [37, 80, 68, 70]
    ∧ ([37, 80, 68, 70] : List Nat) ≠ [] :=
  ⟨rfl, c9_renderPDF_nonempty "JVBERg==" [37, 80, 68, 70] rfl⟩

/-! ## C8 and C10: query option parsing -/

theorem runFields_error (values : List (String × List String))
    (ss : List (fieldSpec α)) (o : pdfOptions α) (e : String) :
    runFields values ss (o, some e) = (o, some e) := by
  cases ss <;> rfl

theorem applyField_cases (values : List (String × List String)) (s : fieldSpec α)
    (o : pdfOptions α) :
    (getQueryValue values s.key = "" ∧ applyField values s o = (o, none))
    ∨ (getQueryValue values s.key ≠ "" ∧ s.app (getQueryValue values s.key) = none ∧
        applyField values s o = (o, some ("invalid " ++ s.key)))
    ∨ (∃ set, getQueryValue values s.key ≠ "" ∧
        s.app (getQueryValue values s.key) = some set ∧
        applyField values s o = (set o, none)) := by
  by_cases hv : getQueryValue values s.key = ""
  · exact Or.inl ⟨hv, by simp [applyField, hv]⟩
  · cases happ : s.app (getQueryValue values s.key) with
    | none => exact Or.inr (Or.inl ⟨hv, rfl, by simp [applyField, hv, happ]⟩)
    | some set => exact Or.inr (Or.inr ⟨set, hv, rfl, by simp [applyField, hv, happ]⟩)

theorem runFields_snd (values : List (String × List String)) :
    ∀ (ss : List (fieldSpec α)) (o : pdfOptions α),
    (runFields values ss (o, none)).2 =
      (firstInvalidKey values ss).map (fun k => "invalid " ++ k) := by
  intro ss
  induction ss with
  | nil => intro o; simp [runFields, firstInvalidKey]
  | cons s rest ih =>
    intro o
    rcases applyField_cases values s o with ⟨hv, happ⟩ | ⟨hv, hnone, happ⟩ | ⟨set, hv, hsome, happ⟩
    · rw [runFields, happ, ih]
      have hinv : fieldInvalid values s = false := by
        simp [fieldInvalid, hv]
      simp [firstInvalidKey, List.find?, hinv]
    · rw [runFields, happ, runFields_error]
      have hinv : fieldInvalid values s = true := by
        simp [fieldInvalid, hv, hnone]
      simp [firstInvalidKey, List.find?, hinv]
    · rw [runFields, happ, ih]
      have hinv : fieldInvalid values s = false := by
        simp [fieldInvalid, hv, hsome]
      simp [firstInvalidKey, List.find?, hinv]

theorem runFields_fst_of_ok (values : List (String × List String)) :
    ∀ (ss : List (fieldSpec α)) (o : pdfOptions α),
    (runFields values ss (o, none)).2 = none →
    (runFields values ss (o, none)).1 = applyFields values ss o := by
  intro ss
  induction ss with
  | nil => intro o _; simp [runFields, applyFields]
  | cons s rest ih =>
    intro o hok
    rcases applyField_cases values s o with ⟨hv, happ⟩ | ⟨hv, hnone, happ⟩ | ⟨set, hv, hsome, happ⟩
    · rw [runFields, happ] at hok ⊢
      rw [ih o hok]
      simp [applyFields, happ]
    · rw [runFields, happ, runFields_error] at hok
      simp at hok
    · rw [runFields, happ] at hok ⊢
      rw [ih (set o) hok]
      simp [applyFields, happ]

theorem applyFields_proj {β : Type} (values : List (String × List String))
    (P : pdfOptions α → β) :
    ∀ (ss : List (fieldSpec α)) (o : pdfOptions α),
    (∀ s ∈ ss, getQueryValue values s.key = "" ∨
      ∀ v set, s.app v = some set → ∀ x, P (set x) = P x) →
    P (applyFields values ss o) = P o := by
  intro ss
  induction ss with
  | nil => intro o _; rfl
  | cons s rest ih =>
    intro o hs
    rcases applyField_cases values s o with ⟨hv, happ⟩ | ⟨hv, hnone, happ⟩ | ⟨set, hv, hsome, happ⟩
    · rw [applyFields, List.foldl_cons, happ]
      exact ih o (fun x hx => hs x (List.mem_cons_of_mem s hx))
    · rw [applyFields, List.foldl_cons, happ]
      exact ih o (fun x hx => hs x (List.mem_cons_of_mem s hx))
    · rw [applyFields, List.foldl_cons, happ]
      have hP : P (set o) = P o := by
        rcases hs s (List.mem_cons_self s rest) with hv2 | hpres
        · exact absurd hv2 hv
        · exact hpres _ set hsome o
      calc P (applyFields values rest (set o)) = P (set o) :=
            ih (set o) (fun x hx => hs x (List.mem_cons_of_mem s hx))
        _ = P o := hP

theorem runFields_fst_proj {β : Type} (values : List (String × List String))
    (P : pdfOptions α → β) :
    ∀ (ss : List (fieldSpec α)) (o : pdfOptions α) (e : Option String),
    (∀ s ∈ ss, getQueryValue values s.key = "" ∨
      ∀ v set, s.app v = some set → ∀ x, P (set x) = P x) →
    P ((runFields values ss (o, e)).1) = P o := by
  intro ss
  induction ss with
  | nil => intro o e _; rfl
  | cons s rest ih =>
    intro o e hs
    cases e with
    | some err => rfl
    | none =>
      rcases applyField_cases values s o with ⟨hv, happ⟩ | ⟨hv, hnone, happ⟩ | ⟨set, hv, hsome, happ⟩
      · rw [runFields, happ]
        exact ih o none (fun x hx => hs x (List.mem_cons_of_mem s hx))
      · rw [runFields, happ, runFields_error]
      · rw [runFields, happ]
        have hP : P (set o) = P o := by
          rcases hs s (List.mem_cons_self s rest) with hv2 | hpres
          · exact absurd hv2 hv
          · exact hpres _ set hsome o
        calc P ((runFields values rest (set o, none)).1) = P (set o) :=
              ih (set o) none (fun x hx => hs x (List.mem_cons_of_mem s hx))
          _ = P o := hP

theorem applyField_fst_proj_other {β : Type} (values : List (String × List String))
    (s : fieldSpec α) (P : pdfOptions α → β)
    (hpres : ∀ v set, s.app v = some set → ∀ x, P (set x) = P x)
    (o : pdfOptions α) :
    P ((applyField values s o).1) = P o := by
  rcases applyField_cases values s o with ⟨hv, happ⟩ | ⟨hv, hnone, happ⟩ | ⟨set, hv, hsome, happ⟩ <;>
    rw [happ]
  · exact hpres _ set hsome o

theorem applyField_fst_self {β : Type} (values : List (String × List String))
    (key : String) (p : String → Option β)
    (setter : β → pdfOptions α → pdfOptions α) (P : pdfOptions α → Option β)
    (hset : ∀ b x, P (setter b x) = some b) (o : pdfOptions α) (ho : P o = none) :
    P ((applyField values ⟨key, fun v => (p v).map setter⟩ o).1) =
      presentOpt p values key := by
  by_cases hv : getQueryValue values key = ""
  · simp [applyField, hv, presentOpt, ho]
  · cases hp : p (getQueryValue values key) with
    | none => simp [applyField, hv, hp, presentOpt, ho]
    | some b => simp [applyField, hv, hp, presentOpt, hset]

theorem applyFields_Scale (values : List (String × List String))
    (pb : String → Option Bool) (pf : String → Option α) :
    (applyFields values (pdfFieldSpecs pb pf) (emptyPdfOptions α)).Scale =
      presentOpt pf values "scale" := by
  simp only [applyFields, pdfFieldSpecs, List.foldl_cons, List.foldl_nil]
  repeat rw [applyField_fst_proj_other values _ pdfOptions.Scale
    (by intro v set happ x; obtain ⟨b, -, rfl⟩ := Option.map_eq_some'.mp happ; rfl)]
  rw [applyField_fst_self values "scale" pf
    (fun x o => { o with Scale := some x }) pdfOptions.Scale (fun b x => rfl) _ ?ho]
  case ho =>
    repeat rw [applyField_fst_proj_other values _ pdfOptions.Scale
      (by intro v set happ x; obtain ⟨b, -, rfl⟩ := Option.map_eq_some'.mp happ; rfl)]
    rfl

theorem applyFields_Landscape (values : List (String × List String))
    (pb : String → Option Bool) (pf : String → Option α) :
    (applyFields values (pdfFieldSpecs pb pf) (emptyPdfOptions α)).Landscape =
      presentOpt pb values "landscape" := by
  simp only [applyFields, pdfFieldSpecs, List.foldl_cons, List.foldl_nil]
  repeat rw [applyField_fst_proj_other values _ pdfOptions.Landscape
    (by intro v set happ x; obtain ⟨b, -, rfl⟩ := Option.map_eq_some'.mp happ; rfl)]
  rw [applyField_fst_self values "landscape" pb
    (fun x o => { o with Landscape := some x }) pdfOptions.Landscape (fun b x => rfl) _ ?ho]
  case ho => rfl

theorem applyFields_PaperWidth (values : List (String × List String))
    (pb : String → Option Bool) (pf : String → Option α) :
    (applyFields values (pdfFieldSpecs pb pf) (emptyPdfOptions α)).PaperWidth =
      presentOpt pf values "paper_width" := by
  simp only [applyFields, pdfFieldSpecs, List.foldl_cons, List.foldl_nil]
  repeat rw [applyField_fst_proj_other values _ pdfOptions.PaperWidth
    (by intro v set happ x; obtain ⟨b, -, rfl⟩ := Option.map_eq_some'.mp happ; rfl)]
  rw [applyField_fst_self values "paper_width" pf
    (fun x o => { o with PaperWidth := some x }) pdfOptions.PaperWidth (fun b x => rfl) _ ?ho]
  case ho =>
    repeat rw [applyField_fst_proj_other values _ pdfOptions.PaperWidth
      (by intro v set happ x; obtain ⟨b, -, rfl⟩ := Option.map_eq_some'.mp happ; rfl)]
    rfl

theorem applyFields_PaperHeight (values : List (String × List String))
    (pb : String → Option Bool) (pf : String → Option α) :
    (applyFields values (pdfFieldSpecs pb pf) (emptyPdfOptions α)).PaperHeight =
      presentOpt pf values "paper_height" := by
  simp only [applyFields, pdfFieldSpecs, List.foldl_cons, List.foldl_nil]
  repeat rw [applyField_fst_proj_other values _ pdfOptions.PaperHeight
    (by intro v set happ x; obtain ⟨b, -, rfl⟩ := Option.map_eq_some'.mp happ; rfl)]
  rw [applyField_fst_self values "paper_height" pf
    (fun x o => { o with PaperHeight := some x }) pdfOptions.PaperHeight (fun b x => rfl) _ ?ho]
  case ho =>
    repeat rw [applyField_fst_proj_other values _ pdfOptions.PaperHeight
      (by intro v set happ x; obtain ⟨b, -, rfl⟩ := Option.map_eq_some'.mp happ; rfl)]
    rfl

theorem applyFields_MarginTop (values : List (String × List String))
    (pb : String → Option Bool) (pf : String → Option α) :
    (applyFields values (pdfFieldSpecs pb pf) (emptyPdfOptions α)).MarginTop =
      presentOpt pf values "margin_top" := by
  simp only [applyFields, pdfFieldSpecs, List.foldl_cons, List.foldl_nil]
  repeat rw [applyField_fst_proj_other values _ pdfOptions.MarginTop
    (by intro v set happ x; obtain ⟨b, -, rfl⟩ := Option.map_eq_some'.mp happ; rfl)]
  rw [applyField_fst_self values "margin_top" pf
    (fun x o => { o with MarginTop := some x }) pdfOptions.MarginTop (fun b x => rfl) _ ?ho]
  case ho =>
    repeat rw [applyField_fst_proj_other values _ pdfOptions.MarginTop
      (by intro v set happ x; obtain ⟨b, -, rfl⟩ := Option.map_eq_some'.mp happ; rfl)]
    rfl

theorem applyFields_MarginBottom (values : List (String × List String))
    (pb : String → Option Bool) (pf : String → Option α) :
    (applyFields values (pdfFieldSpecs pb pf) (emptyPdfOptions α)).MarginBottom =
      presentOpt pf values "margin_bottom" := by
  simp only [applyFields, pdfFieldSpecs, List.foldl_cons, List.foldl_nil]
  repeat rw [applyField_fst_proj_other values _ pdfOptions.MarginBottom
    (by intro v set happ x; obtain ⟨b, -, rfl⟩ := Option.map_eq_some'.mp happ; rfl)]
  rw [applyField_fst_self values "margin_bottom" pf
    (fun x o => { o with MarginBottom := some x }) pdfOptions.MarginBottom (fun b x => rfl) _ ?ho]
  case ho =>
    repeat rw [applyField_fst_proj_other values _ pdfOptions.MarginBottom
      (by intro v set happ x; obtain ⟨b, -, rfl⟩ := Option.map_eq_some'.mp happ; rfl)]
    rfl

theorem applyFields_MarginLeft (values : List (String × List String))
    (pb : String → Option Bool) (pf : String → Option α) :
    (applyFields values (pdfFieldSpecs pb pf) (emptyPdfOptions α)).MarginLeft =
      presentOpt pf values "margin_left" := by
  simp only [applyFields, pdfFieldSpecs, List.foldl_cons, List.foldl_nil]
  repeat rw [applyField_fst_proj_other values _ pdfOptions.MarginLeft
    (by intro v set happ x; obtain ⟨b, -, rfl⟩ := Option.map_eq_some'.mp happ; rfl)]
  rw [applyField_fst_self values "margin_left" pf
    (fun x o => { o with MarginLeft := some x }) pdfOptions.MarginLeft (fun b x => rfl) _ ?ho]
  case ho =>
    repeat rw [applyField_fst_proj_other values _ pdfOptions.MarginLeft
      (by intro v set happ x; obtain ⟨b, -, rfl⟩ := Option.map_eq_some'.mp happ; rfl)]
    rfl

theorem applyFields_MarginRight (values : List (String × List String))
    (pb : String → Option Bool) (pf : String → Option α) :
    (applyFields values (pdfFieldSpecs pb pf) (emptyPdfOptions α)).MarginRight =
      presentOpt pf values "margin_right" := by
  simp only [applyFields, pdfFieldSpecs, List.foldl_cons, List.foldl_nil]
  repeat rw [applyField_fst_proj_other values _ pdfOptions.MarginRight
    (by intro v set happ x; obtain ⟨b, -, rfl⟩ := Option.map_eq_some'.mp happ; rfl)]
  rw [applyField_fst_self values "margin_right" pf
    (fun x o => { o with MarginRight := some x }) pdfOptions.MarginRight (fun b x => rfl) _ ?ho]
  case ho =>
    repeat rw [applyField_fst_proj_other values _ pdfOptions.MarginRight
      (by intro v set happ x; obtain ⟨b, -, rfl⟩ := Option.map_eq_some'.mp happ; rfl)]
    rfl

theorem applyFields_PrintBackground (values : List (String × List String))
    (pb : String → Option Bool) (pf : String → Option α) :
    (applyFields values (pdfFieldSpecs pb pf) (emptyPdfOptions α)).PrintBackground =
      presentOpt pb values "print_background" := by
  simp only [applyFields, pdfFieldSpecs, List.foldl_cons, List.foldl_nil]
  rw [applyField_fst_self values "print_background" pb
    (fun x o => { o with PrintBackground := some x }) pdfOptions.PrintBackground (fun b x => rfl) _ ?ho]
  case ho =>
    repeat rw [applyField_fst_proj_other values _ pdfOptions.PrintBackground
      (by intro v set happ x; obtain ⟨b, -, rfl⟩ := Option.map_eq_some'.mp happ; rfl)]
    rfl

theorem applyFields_PageRanges (values : List (String × List String))
    (pb : String → Option Bool) (pf : String → Option α) :
    (applyFields values (pdfFieldSpecs pb pf) (emptyPdfOptions α)).PageRanges = "" := by
  simp only [applyFields, pdfFieldSpecs, List.foldl_cons, List.foldl_nil]
  repeat rw [applyField_fst_proj_other values _ pdfOptions.PageRanges
    (by intro v set happ x; obtain ⟨b, -, rfl⟩ := Option.map_eq_some'.mp happ; rfl)]
  rfl

theorem string_append_left_cancel (a b c : String) (h : a ++ b = a ++ c) : b = c := by
  have hd := congrArg String.data h
  simp only [String.data_append] at hd
  have h2 := List.append_cancel_left hd
  cases b with
  | mk lb =>
    cases c with
    | mk lc =>
      simp only at h2
      simp [h2]

theorem parsePDFOptions_snd (pb : String → Option Bool)
    (pf : String → Option α) (values : List (String × List String)) :
    (parsePDFOptions pb pf values).2 =
      (firstInvalidKey values (pdfFieldSpecs pb pf)).map (fun k => "invalid " ++ k) := by
  have hsnd := runFields_snd values (pdfFieldSpecs pb pf) (emptyPdfOptions α)
  unfold parsePDFOptions
  rcases hr : runFields values (pdfFieldSpecs pb pf) (emptyPdfOptions α, none) with ⟨o, e⟩
  rw [hr] at hsnd
  cases e with
  | some err => simpa using hsnd
  | none => simpa using hsnd

/-- Claim C8 (corrected): `parsePDFOptions` either fails with `invalid
<field>` for the first field (in source order) whose NON-EMPTY first value
is unparseable, or succeeds with every field that has a non-empty first
value set to its parsed value and every other field unset — a key present
with an empty first value is treated as absent rather than parsed, which is
the correction to the claim as stated; no partial success is observable on
the success path. -/
theorem c8_parse_options_characterization (pb : String → Option Bool)
    (pf : String → Option α) (values : List (String × List String)) :
    ((parsePDFOptions pb pf values).2 =
      (firstInvalidKey values (pdfFieldSpecs pb pf)).map (fun k => "invalid " ++ k))
    ∧ ((parsePDFOptions pb pf values).2 = none →
      (parsePDFOptions pb pf values).1 =
        { Landscape := presentOpt pb values "landscape",
          Scale := presentOpt pf values "scale",
          PaperWidth := presentOpt pf values "paper_width",
          PaperHeight := presentOpt pf values "paper_height",
          MarginTop := presentOpt pf values "margin_top",
          MarginBottom := presentOpt pf values "margin_bottom",
          MarginLeft := presentOpt pf values "margin_left",
          MarginRight := presentOpt pf values "margin_right",
          PrintBackground := presentOpt pb values "print_background",
          PageRanges := getQueryValue values "page_ranges" }) := by
  constructor
  · exact parsePDFOptions_snd pb pf values
  · intro hok
    unfold parsePDFOptions at hok ⊢
    rcases hr : runFields values (pdfFieldSpecs pb pf) (emptyPdfOptions α, none) with ⟨o, e⟩
    rw [hr] at hok
    cases e with
    | some err => simp at hok
    | none =>
      have h1 := runFields_fst_of_ok values (pdfFieldSpecs pb pf) (emptyPdfOptions α)
        (by rw [hr])
      rw [hr] at h1
      simp only at h1
      subst h1
      simp only
      congr 1
      · exact applyFields_Landscape values pb pf
      · exact applyFields_Scale values pb pf
      · exact applyFields_PaperWidth values pb pf
      · exact applyFields_PaperHeight values pb pf
      · exact applyFields_MarginTop values pb pf
      · exact applyFields_MarginBottom values pb pf
      · exact applyFields_MarginLeft values pb pf
      · exact applyFields_MarginRight values pb pf
      · exact applyFields_PrintBackground values pb pf

/-- Counterexample to C8 as stated: the query map `scale=` has the key
`scale` present, its value (the empty string) is unparseable as a float
(`strconv.ParseFloat("", 64)` fails, as does the witness parser here), yet
`parsePDFOptions` neither sets `Scale` to a parsed value nor fails with
`invalid scale` — it succeeds with the field unset. -/
theorem c8_counterexample :
    hasQueryKey [("scale", [""])] "scale" = true
    ∧ String.toNat? "" = none
    ∧ (parsePDFOptions goParseBool String.toNat? [("scale", [""])]).2 = none
    ∧ (parsePDFOptions goParseBool String.toNat? [("scale", [""])]).1.Scale = none :=
  ⟨rfl, rfl, rfl, rfl⟩
theorem getQueryValue_firstValuesOnly (values : List (String × List String))
    (key : String) :
    getQueryValue (firstValuesOnly values) key = getQueryValue values key := by
  induction values with
  | nil => rfl
  | cons kv rest ih =>
    rcases kv with ⟨k, l⟩
    simp only [firstValuesOnly, List.map_cons] at ih ⊢
    cases hbeq : (key == k) with
    | true =>
      cases l with
      | nil => simp [getQueryValue, List.lookup, hbeq]
      | cons v t => simp [getQueryValue, List.lookup, hbeq]
    | false =>
      simp only [getQueryValue, List.lookup, hbeq] at ih ⊢
      exact ih

theorem applyField_congr (v1 v2 : List (String × List String)) (s : fieldSpec α)
    (o : pdfOptions α) (h : ∀ k, getQueryValue v1 k = getQueryValue v2 k) :
    applyField v1 s o = applyField v2 s o := by
  simp [applyField, h]

theorem runFields_congr (v1 v2 : List (String × List String))
    (h : ∀ k, getQueryValue v1 k = getQueryValue v2 k) :
    ∀ (ss : List (fieldSpec α)) (r : pdfOptions α × Option String),
    runFields v1 ss r = runFields v2 ss r := by
  intro ss
  induction ss with
  | nil => intro r; rfl
  | cons s rest ih =>
    intro r
    rcases r with ⟨o, e⟩
    cases e with
    | some err => rfl
    | none =>
      rw [runFields, runFields, applyField_congr v1 v2 s o h, ih]

theorem parse_fst_proj_none {β : Type} (pb : String → Option Bool)
    (pf : String → Option α) (values : List (String × List String))
    (P : pdfOptions α → Option β)
    (hemp : P (emptyPdfOptions α) = none)
    (hs : ∀ s ∈ pdfFieldSpecs pb pf, getQueryValue values s.key = "" ∨
      ∀ v set, s.app v = some set → ∀ x, P (set x) = P x)
    (hPR : ∀ (o : pdfOptions α) x, P ({ o with PageRanges := x }) = P o) :
    P ((parsePDFOptions pb pf values).1) = none := by
  have hproj := runFields_fst_proj values P (pdfFieldSpecs pb pf)
    (emptyPdfOptions α) none hs
  unfold parsePDFOptions
  rcases hr : runFields values (pdfFieldSpecs pb pf) (emptyPdfOptions α, none) with ⟨o, e⟩
  rw [hr] at hproj
  simp only at hproj
  cases e with
  | some err => simpa [hemp] using hproj
  | none => simp only; rw [hPR]; simpa [hemp] using hproj

/-- Claim C10 (confirmed): `getQueryValue` reads only the first element of
a key's value list (an absent key, an empty list, or an empty first value
all yield the empty string); `parsePDFOptions` is unchanged when every value
list is truncated to its first element, so later values — parseable or not —
never matter; and a key whose first value is empty raises no `invalid <key>`
error and leaves the corresponding field unset (`page_ranges` stays
empty). -/
theorem c10_query_first_value_only (pb : String → Option Bool)
    (pf : String → Option α) (values : List (String × List String)) :
    (∀ (key v : String) (tail : List String) (rest : List (String × List String)),
        getQueryValue ((key, v :: tail) :: rest) key = v)
    ∧ (∀ (key : String) (rest : List (String × List String)),
        getQueryValue ((key, ([] : List String)) :: rest) key = "")
    ∧ (∀ key, hasQueryKey values key = false → getQueryValue values key = "")
    ∧ parsePDFOptions pb pf (firstValuesOnly values) = parsePDFOptions pb pf values
    ∧ (∀ key, getQueryValue values key = "" →
        (parsePDFOptions pb pf values).2 ≠ some ("invalid " ++ key))
    ∧ (getQueryValue values "landscape" = "" →
        (parsePDFOptions pb pf values).1.Landscape = none)
    ∧ (getQueryValue values "scale" = "" →
        (parsePDFOptions pb pf values).1.Scale = none)
    ∧ (getQueryValue values "paper_width" = "" →
        (parsePDFOptions pb pf values).1.PaperWidth = none)
    ∧ (getQueryValue values "paper_height" = "" →
        (parsePDFOptions pb pf values).1.PaperHeight = none)
    ∧ (getQueryValue values "margin_top" = "" →
        (parsePDFOptions pb pf values).1.MarginTop = none)
    ∧ (getQueryValue values "margin_bottom" = "" →
        (parsePDFOptions pb pf values).1.MarginBottom = none)
    ∧ (getQueryValue values "margin_left" = "" →
        (parsePDFOptions pb pf values).1.MarginLeft = none)
    ∧ (getQueryValue values "margin_right" = "" →
        (parsePDFOptions pb pf values).1.MarginRight = none)
    ∧ (getQueryValue values "print_background" = "" →
        (parsePDFOptions pb pf values).1.PrintBackground = none)
    ∧ (getQueryValue values "page_ranges" = "" →
        (parsePDFOptions pb pf values).1.PageRanges = "") := by
  refine ⟨?_, ?_, ?_, ?_, ?_, ?_, ?_, ?_, ?_, ?_, ?_, ?_, ?_, ?_, ?_⟩
  · intro key v tail rest
    simp [getQueryValue, List.lookup]
  · intro key rest
    simp [getQueryValue, List.lookup]
  · intro key hnone
    have hlk : List.lookup key values = none := by
      simp only [hasQueryKey] at hnone
      exact Option.not_isSome_iff_eq_none.mp (by simp [hnone])
    simp [getQueryValue, hlk]
  · unfold parsePDFOptions
    rw [runFields_congr (firstValuesOnly values) values
      (fun k => getQueryValue_firstValuesOnly values k),
      getQueryValue_firstValuesOnly values "page_ranges"]
  · intro key hv hbad
    have hsnd := parsePDFOptions_snd pb pf values
    rw [hbad] at hsnd
    rcases hfk : firstInvalidKey values (pdfFieldSpecs pb pf) with _ | k0
    · rw [hfk] at hsnd; simp at hsnd
    · rw [hfk] at hsnd
      simp only [Option.map_some'] at hsnd
      obtain hk0 := Option.some.inj hsnd
      have hkey : key = k0 := string_append_left_cancel "invalid " key k0 hk0
      subst hkey
      obtain ⟨spec0, hfind⟩ : ∃ spec0, (pdfFieldSpecs pb pf).find?
          (fieldInvalid values) = some spec0 ∧ spec0.key = key := by
        unfold firstInvalidKey at hfk
        rcases hfind0 : (pdfFieldSpecs pb pf).find? (fieldInvalid values) with _ | spec0
        · rw [hfind0] at hfk; simp at hfk
        · rw [hfind0] at hfk
          simp only [Option.map_some'] at hfk
          exact ⟨spec0, rfl, Option.some.inj hfk⟩
      obtain ⟨hfind1, hkeq⟩ := hfind
      have hinv := List.find?_some hfind1
      simp only [fieldInvalid, Bool.and_eq_true, decide_eq_true_eq] at hinv
      rw [hkeq] at hinv
      exact hinv.1 hv
  · intro hv
    exact parse_fst_proj_none pb pf values pdfOptions.Landscape rfl (by
      intro s hsmem
      simp only [pdfFieldSpecs, List.mem_cons, List.not_mem_nil, or_false] at hsmem
      rcases hsmem with rfl | rfl | rfl | rfl | rfl | rfl | rfl | rfl | rfl <;>
        first
          | exact Or.inr (by
              intro v set happ x
              obtain ⟨b, -, rfl⟩ := Option.map_eq_some'.mp happ
              rfl)
          | exact Or.inl hv)
      (fun o x => rfl)
  · intro hv
    exact parse_fst_proj_none pb pf values pdfOptions.Scale rfl (by
      intro s hsmem
      simp only [pdfFieldSpecs, List.mem_cons, List.not_mem_nil, or_false] at hsmem
      rcases hsmem with rfl | rfl | rfl | rfl | rfl | rfl | rfl | rfl | rfl <;>
        first
          | exact Or.inr (by
              intro v set happ x
              obtain ⟨b, -, rfl⟩ := Option.map_eq_some'.mp happ
              rfl)
          | exact Or.inl hv)
      (fun o x => rfl)
  · intro hv
    exact parse_fst_proj_none pb pf values pdfOptions.PaperWidth rfl (by
      intro s hsmem
      simp only [pdfFieldSpecs, List.mem_cons, List.not_mem_nil, or_false] at hsmem
      rcases hsmem with rfl | rfl | rfl | rfl | rfl | rfl | rfl | rfl | rfl <;>
        first
          | exact Or.inr (by
              intro v set happ x
              obtain ⟨b, -, rfl⟩ := Option.map_eq_some'.mp happ
              rfl)
          | exact Or.inl hv)
      (fun o x => rfl)
  · intro hv
    exact parse_fst_proj_none pb pf values pdfOptions.PaperHeight rfl (by
      intro s hsmem
      simp only [pdfFieldSpecs, List.mem_cons, List.not_mem_nil, or_false] at hsmem
      rcases hsmem with rfl | rfl | rfl | rfl | rfl | rfl | rfl | rfl | rfl <;>
        first
          | exact Or.inr (by
              intro v set happ x
              obtain ⟨b, -, rfl⟩ := Option.map_eq_some'.mp happ
              rfl)
          | exact Or.inl hv)
      (fun o x => rfl)
  · intro hv
    exact parse_fst_proj_none pb pf values pdfOptions.MarginTop rfl (by
      intro s hsmem
      simp only [pdfFieldSpecs, List.mem_cons, List.not_mem_nil, or_false] at hsmem
      rcases hsmem with rfl | rfl | rfl | rfl | rfl | rfl | rfl | rfl | rfl <;>
        first
          | exact Or.inr (by
              intro v set happ x
              obtain ⟨b, -, rfl⟩ := Option.map_eq_some'.mp happ
              rfl)
          | exact Or.inl hv)
      (fun o x => rfl)
  · intro hv
    exact parse_fst_proj_none pb pf values pdfOptions.MarginBottom rfl (by
      intro s hsmem
      simp only [pdfFieldSpecs, List.mem_cons, List.not_mem_nil, or_false] at hsmem
      rcases hsmem with rfl | rfl | rfl | rfl | rfl | rfl | rfl | rfl | rfl <;>
        first
          | exact Or.inr (by
              intro v set happ x
              obtain ⟨b, -, rfl⟩ := Option.map_eq_some'.mp happ
              rfl)
          | exact Or.inl hv)
      (fun o x => rfl)
  · intro hv
    exact parse_fst_proj_none pb pf values pdfOptions.MarginLeft rfl (by
      intro s hsmem
      simp only [pdfFieldSpecs, List.mem_cons, List.not_mem_nil, or_false] at hsmem
      rcases hsmem with rfl | rfl | rfl | rfl | rfl | rfl | rfl | rfl | rfl <;>
        first
          | exact Or.inr (by
              intro v set happ x
              obtain ⟨b, -, rfl⟩ := Option.map_eq_some'.mp happ
              rfl)
          | exact Or.inl hv)
      (fun o x => rfl)
  · intro hv
    exact parse_fst_proj_none pb pf values pdfOptions.MarginRight rfl (by
      intro s hsmem
      simp only [pdfFieldSpecs, List.mem_cons, List.not_mem_nil, or_false] at hsmem
      rcases hsmem with rfl | rfl | rfl | rfl | rfl | rfl | rfl | rfl | rfl <;>
        first
          | exact Or.inr (by
              intro v set happ x
              obtain ⟨b, -, rfl⟩ := Option.map_eq_some'.mp happ
              rfl)
          | exact Or.inl hv)
      (fun o x => rfl)
  · intro hv
    exact parse_fst_proj_none pb pf values pdfOptions.PrintBackground rfl (by
      intro s hsmem
      simp only [pdfFieldSpecs, List.mem_cons, List.not_mem_nil, or_false] at hsmem
      rcases hsmem with rfl | rfl | rfl | rfl | rfl | rfl | rfl | rfl | rfl <;>
        first
          | exact Or.inr (by
              intro v set happ x
              obtain ⟨b, -, rfl⟩ := Option.map_eq_some'.mp happ
              rfl)
          | exact Or.inl hv)
      (fun o x => rfl)
  · intro hv
    unfold parsePDFOptions
    rcases hr : runFields values (pdfFieldSpecs pb pf) (emptyPdfOptions α, none) with ⟨o, e⟩
    have hproj := runFields_fst_proj values pdfOptions.PageRanges (pdfFieldSpecs pb pf)
      (emptyPdfOptions α) none (by
        intro s hsmem
        simp only [pdfFieldSpecs, List.mem_cons, List.not_mem_nil, or_false] at hsmem
        rcases hsmem with rfl | rfl | rfl | rfl | rfl | rfl | rfl | rfl | rfl <;>
          exact Or.inr (by
            intro v set happ x
            obtain ⟨b, -, rfl⟩ := Option.map_eq_some'.mp happ
            rfl))
    rw [hr] at hproj
    simp only at hproj
    cases e with
    | some err => simpa using hproj
    | none => simp [hv]

/-- Witness for C8: a query map with parseable values yields the fully
populated record. -/
theorem c8_witness :
    (parsePDFOptions goParseBool witDigits
      [("landscape", ["true"]), ("scale", ["7"])]).1 =
      { Landscape := some true, Scale := some 7, PageRanges := "" } := by
  have h := (c8_parse_options_characterization goParseBool witDigits
    [("landscape", ["true"]), ("scale", ["7"])]).2 (by decide)
  rw [h]
  decide

/-- Witness for C10: an empty first value blocks parsing of the later
unparseable value, raises no error and leaves the field unset. -/
theorem c10_witness :
    getQueryValue [("scale", ["", "oops"])] "scale" = ""
    ∧ (parsePDFOptions goParseBool String.toNat? [("scale", ["", "oops"])]).2 ≠
        some ("invalid " ++ "scale")
    ∧ (parsePDFOptions goParseBool String.toNat? [("scale", ["", "oops"])]).1.Scale =
        none := by
  refine ⟨rfl, ?_, ?_⟩
  · exact (c10_query_first_value_only goParseBool String.toNat?
      [("scale", ["", "oops"])]).2.2.2.2.1 "scale" rfl
  · exact (c10_query_first_value_only goParseBool String.toNat?
      [("scale", ["", "oops"])]).2.2.2.2.2.2.1 rfl

end PDFRest
